import Mathlib

/-!
# Task Dashboard — formal model

Shallow embedding of the kanban task-dashboard (GitHub-issues backed variant
and the offline/localStorage variant) and proofs about its label/body codec,
its task store, and its view-count synchronisation.

Sources modelled:
* `issueToTask`, `taskToIssueBody`, `getLabelsForTask`, `createTask`,
  `updateTask`, `deleteTask`, `fetchIssues`, `updateColumnCount` of the
  GitHub-backed dashboard;
* `createTask`, `updateTask`, `deleteTask`, `updateColumnCount` of the
  offline (localStorage) dashboard;
* `issueToTip`, `deleteTip` of the TIP workshop extension.
-/

namespace TaskDash

/-- Task status enum: the three kanban columns. -/
inductive Status where
  | todo
  | inProgress
  | done
deriving DecidableEq, Repr

/-- The label string a status is encoded as. -/
def Status.label : Status → String
  | .todo => "todo"
  | .inProgress => "in-progress"
  | .done => "done"

/-- Assignee enum; `nobody` is the empty-string assignee in the source. -/
inductive Assignee where
  | nobody
  | sam
  | milo
deriving DecidableEq, Repr

/-- The string stored in the `assignee` field of a task. -/
def Assignee.str : Assignee → String
  | .nobody => ""
  | .sam => "sam"
  | .milo => "milo"

/-- Priority enum; default is `medium`. -/
inductive Priority where
  | low
  | medium
  | high
deriving DecidableEq, Repr

/-- The string used in the `priority:<p>` label. -/
def Priority.label : Priority → String
  | .low => "low"
  | .medium => "medium"
  | .high => "high"

/-- A task record, as built by `issueToTask` and stored in `this.issues`.
Draft tasks coming from the form carry the same six domain fields; their
external fields (`id`, `issueNumber`, `createdAt`, `url`) are simply unread
by the encoder, which mirrors the JavaScript duck typing. -/
structure Task where
  id : String
  issueNumber : Nat
  title : String
  description : String
  assignee : Assignee
  dueDate : String
  priority : Priority
  status : Status
  createdAt : String
  url : String
deriving DecidableEq, Repr

/-- An external issue record as returned by the collaborator API:
number, title, body, label names, open/closed state, timestamps, URL and
the pull-request discriminator. -/
structure Issue where
  number : Nat
  title : String
  body : String
  labels : List String
  state : String
  created_at : String
  updated_at : String
  html_url : String
  pull_request : Bool
  comments : Nat
deriving DecidableEq, Repr

/-! ## Body-text scanning (the regex work of `issueToTask`) -/

/-- `stripPrefixL pat s` consumes `pat` from the front of `s`,
returning the remainder, or `none` when `s` does not start with `pat`. -/
def stripPrefixL : List Char → List Char → Option (List Char)
  | [], s => some s
  | _ :: _, [] => none
  | p :: ps, c :: cs => if c = p then stripPrefixL ps cs else none

/-- Match exactly `n` ASCII digits (`\d{n}`), returning them and the rest. -/
def matchDigits : Nat → List Char → Option (List Char × List Char)
  | 0, s => some ([], s)
  | _ + 1, [] => none
  | n + 1, c :: cs =>
    if c.isDigit then
      (matchDigits n cs).map (fun p => (c :: p.1, p.2))
    else
      none

/-- Match `\d{4}-\d{2}-\d{2}` at the start of the input, returning the
matched date characters and the remainder. -/
def matchDateL (s : List Char) : Option (List Char × List Char) :=
  match matchDigits 4 s with
  | none => none
  | some (y, s1) =>
    match s1 with
    | '-' :: s2 =>
      match matchDigits 2 s2 with
      | none => none
      | some (m, s3) =>
        match s3 with
        | '-' :: s4 =>
          match matchDigits 2 s4 with
          | none => none
          | some (d, s5) => some (y ++ '-' :: m ++ '-' :: d, s5)
        | _ => none
    | _ => none

/-- The due-date marker prefix `📅 Due: ` used by the codec. -/
def dueMarker : List Char := "📅 Due: ".data

/-- Match the full due-date marker `📅 Due: \d{4}-\d{2}-\d{2}` at the start
of the input, returning the date group and the remainder after the match. -/
def matchMarkerDate (s : List Char) : Option (List Char × List Char) :=
  match stripPrefixL dueMarker s with
  | none => none
  | some rest => matchDateL rest

/-- Leftmost search for `📅 Due: (\d{4}-\d{2}-\d{2})`, returning the first
match's date group (the behaviour of `body.match(...)` in `issueToTask`). -/
def findDueL : List Char → Option (List Char)
  | [] => none
  | c :: cs => (matchMarkerDate (c :: cs)).elim (findDueL cs) (fun p => some p.1)

/-- Remove the leftmost match of `\n?📅 Due: \d{4}-\d{2}-\d{2}`
(the behaviour of `body.replace(/\n?📅 Due: \d{4}-\d{2}-\d{2}/, '')`).
At each position the greedy `\n?` first tries to consume a newline. -/
def removeDueOnceL : List Char → List Char
  | [] => []
  | c :: cs =>
    (if c = '\n' then matchMarkerDate cs else none).elim
      ((matchMarkerDate (c :: cs)).elim (c :: removeDueOnceL cs) (fun p => p.2))
      (fun p => p.2)

/-- Drop leading whitespace (the front half of JavaScript `trim()`). -/
def trimStart (s : List Char) : List Char := s.dropWhile Char.isWhitespace

/-- Drop trailing whitespace (the back half of JavaScript `trim()`). -/
def trimEnd (s : List Char) : List Char :=
  (s.reverse.dropWhile Char.isWhitespace).reverse

/-- JavaScript `String.prototype.trim`. -/
def jsTrim (s : List Char) : List Char := trimEnd (trimStart s)

/-! ## The codec (`issueToTask`, `taskToIssueBody`, `getLabelsForTask`) -/

/-- Status decoding of `issueToTask`: `done` label or closed state win,
then `in-progress`, then the default `todo` (the explicit `todo` branch of
the source assigns the default again). -/
def statusFromIssue (labels : List String) (state : String) : Status :=
  if labels.contains "done" || state == "closed" then .done
  else if labels.contains "in-progress" then .inProgress
  else .todo

/-- Assignee decoding of `issueToTask`: `assigned:sam` wins over
`assigned:milo`; absence of both means no assignee. -/
def assigneeFromLabels (labels : List String) : Assignee :=
  if labels.contains "assigned:sam" then .sam
  else if labels.contains "assigned:milo" then .milo
  else .nobody

/-- Priority decoding of `issueToTask`: `high`, then `low`, then the
default `medium` (the explicit `medium` branch assigns the default again). -/
def priorityFromLabels (labels : List String) : Priority :=
  if labels.contains "priority:high" then .high
  else if labels.contains "priority:low" then .low
  else .medium

/-- `issueToTask`: decode an external issue record into a task. -/
def issueToTask (i : Issue) : Task :=
  { id := toString i.number
    issueNumber := i.number
    title := i.title
    description := String.mk (jsTrim (removeDueOnceL i.body.data))
    assignee := assigneeFromLabels i.labels
    dueDate :=
      match findDueL i.body.data with
      | some d => String.mk d
      | none => ""
    priority := priorityFromLabels i.labels
    status := statusFromIssue i.labels i.state
    createdAt := i.created_at
    url := i.html_url }

/-- `taskToIssueBody`: the body is the description, with the due-date
marker line appended (after a blank line) when `dueDate` is set. -/
def taskToIssueBody (t : Task) : String :=
  if t.dueDate = "" then t.description
  else t.description ++ "\n\n📅 Due: " ++ t.dueDate

/-- `getLabelsForTask`: status label, then `assigned:<a>` when an assignee
is set, then `priority:<p>`. -/
def getLabelsForTask (t : Task) : List String :=
  [t.status.label]
    ++ (match t.assignee with
        | .nobody => []
        | a => ["assigned:" ++ a.str])
    ++ ["priority:" ++ t.priority.label]

/-- The issue record the collaborator returns for `createIssue(title, body,
labels)`: it echoes title, body and labels, is open, and supplies the
external number, timestamp and URL. -/
def createdIssue (n : Nat) (createdAt url : String) (t : Task) : Issue :=
  { number := n
    title := t.title
    body := taskToIssueBody t
    labels := getLabelsForTask t
    state := if t.status = .done then "closed" else "open"
    created_at := createdAt
    updated_at := createdAt
    html_url := url
    pull_request := false
    comments := 0 }

/-- `matchDateL s = some (s, [])`: `s` is exactly an ISO `YYYY-MM-DD` date. -/
def isIsoDate (s : String) : Bool := matchDateL s.data == some (s.data, [])

/-! ## Codec lemmas -/

theorem dueMarker_eq : dueMarker = '📅' :: " Due: ".data := rfl

theorem stripPrefixL_self (p r : List Char) : stripPrefixL p (p ++ r) = some r := by
  induction p with
  | nil => rfl
  | cons c cs ih => simp [stripPrefixL, ih]

theorem matchMarkerDate_cons_ne {c : Char} (cs : List Char) (h : c ≠ '📅') :
    matchMarkerDate (c :: cs) = none := by
  simp [matchMarkerDate, dueMarker_eq, stripPrefixL, h]

theorem matchMarkerDate_nil : matchMarkerDate [] = none := by
  simp [matchMarkerDate, dueMarker_eq, stripPrefixL]

theorem matchMarkerDate_of_noMark {l : List Char} (h : ∀ c ∈ l, c ≠ '📅') :
    matchMarkerDate l = none := by
  cases l with
  | nil => exact matchMarkerDate_nil
  | cons c cs => exact matchMarkerDate_cons_ne cs (h c (by simp))

theorem matchMarkerDate_marker (d : List Char) :
    matchMarkerDate (dueMarker ++ d) = matchDateL d := by
  simp [matchMarkerDate, stripPrefixL_self]

theorem findDueL_append {s : List Char} (r : List Char)
    (h : ∀ c ∈ s, c ≠ '📅') : findDueL (s ++ r) = findDueL r := by
  induction s with
  | nil => rfl
  | cons c cs ih =>
    have hc : c ≠ '📅' := h c (by simp)
    have hrest : ∀ x ∈ cs, x ≠ '📅' := fun x hx => h x (by simp [hx])
    simp [findDueL, matchMarkerDate_cons_ne _ hc, ih hrest]

theorem findDueL_eq_of_match {l : List Char} {p : List Char × List Char}
    (h : matchMarkerDate l = some p) : findDueL l = some p.1 := by
  cases l with
  | nil => rw [matchMarkerDate_nil] at h; exact absurd h (by simp)
  | cons c cs => simp [findDueL, h]

theorem findDueL_suffix {d : List Char} (hd : matchDateL d = some (d, [])) :
    findDueL ('\n' :: '\n' :: (dueMarker ++ d)) = some d := by
  have h2 : matchMarkerDate (dueMarker ++ d) = some (d, []) := by
    rw [matchMarkerDate_marker, hd]
  have e : '\n' :: '\n' :: (dueMarker ++ d) = ['\n', '\n'] ++ (dueMarker ++ d) := rfl
  rw [e, findDueL_append _ (by decide), findDueL_eq_of_match h2]

theorem removeDueOnceL_append {s : List Char} {r : List Char}
    (h : ∀ c ∈ s, c ≠ '📅') (hr : matchMarkerDate r = none) :
    removeDueOnceL (s ++ r) = s ++ removeDueOnceL r := by
  induction s with
  | nil => rfl
  | cons c cs ih =>
    have hc : c ≠ '📅' := h c (by simp)
    have hrest : ∀ x ∈ cs, x ≠ '📅' := fun x hx => h x (by simp [hx])
    have htail : matchMarkerDate (cs ++ r) = none := by
      cases cs with
      | nil => simpa using hr
      | cons d ds => exact matchMarkerDate_cons_ne _ (hrest d (by simp))
    simp [removeDueOnceL, matchMarkerDate_cons_ne _ hc, htail, ih hrest]

theorem removeDueOnceL_suffix {d : List Char} (hd : matchDateL d = some (d, [])) :
    removeDueOnceL ('\n' :: '\n' :: (dueMarker ++ d)) = ['\n'] := by
  have h0 : matchMarkerDate ('\n' :: '\n' :: (dueMarker ++ d)) = none :=
    matchMarkerDate_cons_ne _ (by decide)
  have h1 : matchMarkerDate ('\n' :: (dueMarker ++ d)) = none :=
    matchMarkerDate_cons_ne _ (by decide)
  have h2 : matchMarkerDate (dueMarker ++ d) = some (d, []) := by
    rw [matchMarkerDate_marker, hd]
  simp [removeDueOnceL, h0, h1, h2]

theorem removeDueOnceL_of_noMark {s : List Char} (h : ∀ c ∈ s, c ≠ '📅') :
    removeDueOnceL s = s := by
  have := removeDueOnceL_append (r := []) h matchMarkerDate_nil
  simpa [removeDueOnceL] using this

theorem findDueL_of_noMark {s : List Char} (h : ∀ c ∈ s, c ≠ '📅') :
    findDueL s = none := by
  have := findDueL_append (r := []) h
  simpa [findDueL] using this

theorem trimStart_append_singleton (s : List Char) :
    trimStart (s ++ ['\n']) =
      if trimStart s = [] then [] else trimStart s ++ ['\n'] := by
  induction s with
  | nil => simp [trimStart, List.dropWhile]
  | cons c cs ih =>
    by_cases hc : c.isWhitespace
    · simpa [trimStart, List.dropWhile, hc] using ih
    · simp [trimStart, List.dropWhile, hc]

theorem trimEnd_append_newline (s : List Char) : trimEnd (s ++ ['\n']) = trimEnd s := by
  simp [trimEnd, List.dropWhile]

theorem jsTrim_append_newline (s : List Char) : jsTrim (s ++ ['\n']) = jsTrim s := by
  unfold jsTrim
  rw [trimStart_append_singleton]
  by_cases h : trimStart s = []
  · simp [h, trimEnd]
  · simp [h, trimEnd_append_newline]

theorem statusFromIssue_encode (t : Task) :
    statusFromIssue (getLabelsForTask t)
      (if t.status = .done then "closed" else "open") = t.status := by
  obtain ⟨i, n, ti, de, a, dd, p, st, c, u⟩ := t
  cases st <;> cases a <;> cases p <;> rfl

theorem assigneeFromLabels_encode (t : Task) :
    assigneeFromLabels (getLabelsForTask t) = t.assignee := by
  obtain ⟨i, n, ti, de, a, dd, p, st, c, u⟩ := t
  cases st <;> cases a <;> cases p <;> rfl

theorem priorityFromLabels_encode (t : Task) :
    priorityFromLabels (getLabelsForTask t) = t.priority := by
  obtain ⟨i, n, ti, de, a, dd, p, st, c, u⟩ := t
  cases st <;> cases a <;> cases p <;> rfl

/-! ## Task store and view-count model (GitHub-backed variant)

The DOM is modelled by the per-column displayed counts; the in-memory
collection is `issues`.  Each network call the store issues is logged, and
a rejected call (`response.ok` false, so `apiRequest` throws) aborts the
remaining statements of the operation, which is modelled by returning the
unchanged state with `err := true`. -/

/-- A payload sent to the collaborator. -/
inductive RemoteCall where
  | createIssue (title : String) (body : String) (labels : List String)
  | updateIssue (issueNumber : Nat) (title : String) (body : String)
      (labels : List String) (state : String)
  | tombstone (issueNumber : Nat) (state : String) (labels : List String)
deriving DecidableEq, Repr

/-- The `state` field of a payload, when present. -/
def RemoteCall.sentState : RemoteCall → Option String
  | .createIssue _ _ _ => none
  | .updateIssue _ _ _ _ st => some st
  | .tombstone _ st _ => some st

/-- The `labels` field of a payload. -/
def RemoteCall.sentLabels : RemoteCall → List String
  | .createIssue _ _ ls => ls
  | .updateIssue _ _ _ ls _ => ls
  | .tombstone _ _ ls => ls

/-- The displayed per-column task counts (`.task-count` text content). -/
structure Counts where
  todo : Nat
  inProgress : Nat
  done : Nat
deriving DecidableEq, Repr

/-- Write one column's displayed count. -/
def Counts.set (c : Counts) : Status → Nat → Counts
  | .todo, n => { c with todo := n }
  | .inProgress, n => { c with inProgress := n }
  | .done, n => { c with done := n }

/-- Read one column's displayed count. -/
def Counts.get (c : Counts) : Status → Nat
  | .todo => c.todo
  | .inProgress => c.inProgress
  | .done => c.done

/-- Dashboard state: the in-memory collection plus the displayed counts. -/
structure DashState where
  issues : List Task
  counts : Counts
deriving DecidableEq, Repr

/-- `this.issues.filter(t => t.status === status).length`. -/
def countTasks (ts : List Task) (st : Status) : Nat :=
  (ts.filter (fun t => t.status == st)).length

/-- `updateColumnCount`: recompute one column's displayed count from the
collection. -/
def updateColumnCount (s : DashState) (st : Status) : DashState :=
  { s with counts := s.counts.set st (countTasks s.issues st) }

/-- A partial update (`updates` object): fields present replace the
corresponding task fields under the JavaScript spread merge.  The form
submits all six fields; a drag-and-drop submits only `status`; no caller
ever includes `id`, `issueNumber`, `createdAt` or `url`. -/
structure Updates where
  title : Option String := none
  description : Option String := none
  assignee : Option Assignee := none
  dueDate : Option String := none
  priority : Option Priority := none
  status : Option Status := none
deriving DecidableEq, Repr

/-- `{ ...oldTask, ...updates }`. -/
def mergeTask (t : Task) (u : Updates) : Task :=
  { t with
    title := u.title.getD t.title
    description := u.description.getD t.description
    assignee := u.assignee.getD t.assignee
    dueDate := u.dueDate.getD t.dueDate
    priority := u.priority.getD t.priority
    status := u.status.getD t.status }

/-- `findIndex` + in-place assignment of the merged task: returns the old
task, the merged task and the collection with the first `id` match
replaced, or `none` when `id` is absent. -/
def updateFirst (id : String) (u : Updates) : List Task → Option (Task × Task × List Task)
  | [] => none
  | t :: ts =>
    if t.id = id then some (t, mergeTask t u, mergeTask t u :: ts)
    else (updateFirst id u ts).map (fun r => (r.1, r.2.1, t :: r.2.2))

/-- `this.issues.find(t => t.id === id)`. -/
def findFirst (id : String) : List Task → Option Task
  | [] => none
  | t :: ts => if t.id = id then some t else findFirst id ts

/-- One store operation together with the environment's response:
the issue record a successful create returns, the success flag of an
update/delete call, and the two pages a refresh fetches. -/
inductive ApiOp where
  | create (draft : Task) (result : Option Issue)
  | update (id : String) (u : Updates) (ok : Bool)
  | delete (id : String) (ok : Bool)
  | refresh (openIssues : List Issue) (closedIssues : List Issue) (ok : Bool)
deriving Repr

/-- Result of one operation: next state, the calls issued, the value
returned to the caller, and whether an exception propagated. -/
structure StepResult where
  state : DashState
  calls : List RemoteCall
  ret : Option Task
  err : Bool
deriving Repr

/-- One step of the GitHub-backed store (`createTask`, `updateTask`,
`deleteTask`, and the refresh path `fetchIssues; renderAllTasks;
updateAllCounts`). -/
def apiStep (s : DashState) : ApiOp → StepResult
  | .create draft result =>
    let call := RemoteCall.createIssue draft.title (taskToIssueBody draft)
      (getLabelsForTask draft)
    match result with
    | none => { state := s, calls := [call], ret := none, err := true }
    | some issue =>
      let task := issueToTask issue
      let s1 : DashState := { s with issues := s.issues ++ [task] }
      { state := updateColumnCount s1 task.status, calls := [call],
        ret := some task, err := false }
  | .update id u ok =>
    match updateFirst id u s.issues with
    | none => { state := s, calls := [], ret := none, err := false }
    | some (oldTask, newTask, issues1) =>
      let st := if newTask.status = Status.done then "closed" else "open"
      let call := RemoteCall.updateIssue oldTask.issueNumber newTask.title
        (taskToIssueBody newTask) (getLabelsForTask newTask) st
      if ok then
        let s1 : DashState := { s with issues := issues1 }
        let s2 :=
          match u.status with
          | some stNew =>
            if stNew = oldTask.status then s1
            else updateColumnCount (updateColumnCount s1 oldTask.status) stNew
          | none => s1
        { state := s2, calls := [call], ret := some newTask, err := false }
      else { state := s, calls := [call], ret := none, err := true }
  | .delete id ok =>
    match findFirst id s.issues with
    | none => { state := s, calls := [], ret := none, err := false }
    | some task =>
      let call := RemoteCall.tombstone task.issueNumber "closed" ["deleted"]
      if ok then
        let s1 : DashState := { s with issues := s.issues.filter (fun t => t.id != id) }
        { state := updateColumnCount s1 task.status, calls := [call],
          ret := none, err := false }
      else { state := s, calls := [call], ret := none, err := true }
  | .refresh openL closedL ok =>
    if ok then
      let issues1 := ((openL ++ closedL).filter (fun i => !i.pull_request)).map issueToTask
      let s1 : DashState := { issues := issues1, counts := s.counts }
      { state := updateColumnCount (updateColumnCount
          (updateColumnCount s1 .todo) .inProgress) .done,
        calls := [], ret := none, err := false }
    else { state := s, calls := [], ret := none, err := true }

/-- Run a sequence of operations. -/
def apiRun (s : DashState) : List ApiOp → DashState
  | [] => s
  | op :: ops => apiRun (apiStep s op).state ops

/-- The freshly initialised dashboard: empty collection, zero counts. -/
def initState : DashState := { issues := [], counts := ⟨0, 0, 0⟩ }

/-- Count consistency: every displayed column count equals the number of
collection records with that status. -/
def countsOkB (s : DashState) : Bool :=
  (s.counts.todo == countTasks s.issues .todo) &&
  (s.counts.inProgress == countTasks s.issues .inProgress) &&
  (s.counts.done == countTasks s.issues .done)

/-- Pairwise-distinct strings. -/
def nodupB : List String → Bool
  | [] => true
  | x :: xs => !(xs.contains x) && nodupB xs

/-- The collaborator-sanity condition an operation relies on: a successful
create returns an issue number not already used by a collection record, and
a successful refresh returns records with pairwise distinct numbers. -/
def apiFresh (s : DashState) : ApiOp → Bool
  | .create _ (some issue) => !((s.issues.map Task.id).contains (toString issue.number))
  | .create _ none => true
  | .update _ _ _ => true
  | .delete _ _ => true
  | .refresh openL closedL ok =>
    !ok || nodupB (((((openL ++ closedL).filter (fun i => !i.pull_request)).map issueToTask).map Task.id))

/-- The collaborator-sanity condition along a whole trace. -/
def apiFreshRun (s : DashState) : List ApiOp → Bool
  | [] => true
  | op :: ops => apiFresh s op && apiFreshRun (apiStep s op).state ops

/-! ## Offline (localStorage) variant -/

/-- A task record of the offline variant: no external reference fields;
`id` is `Date.now().toString()` at creation. -/
structure OTask where
  id : String
  title : String
  description : String
  assignee : Assignee
  dueDate : String
  priority : Priority
  status : Status
  createdAt : String
deriving DecidableEq, Repr

/-- The form data handed to the offline `createTask`. -/
structure Draft where
  title : String
  description : String
  assignee : Assignee
  dueDate : String
  priority : Priority
  status : Status
deriving DecidableEq, Repr

/-- Offline dashboard state: collection plus displayed counts. -/
structure LocalState where
  tasks : List OTask
  counts : Counts
deriving DecidableEq, Repr

/-- `this.tasks.filter(t => t.status === status).length` (offline). -/
def countOTasks (ts : List OTask) (st : Status) : Nat :=
  (ts.filter (fun t => t.status == st)).length

/-- Offline `updateColumnCount`. -/
def updateColumnCountO (s : LocalState) (st : Status) : LocalState :=
  { s with counts := s.counts.set st (countOTasks s.tasks st) }

/-- `{ ...this.tasks[index], ...updates }` (offline). -/
def mergeOTask (t : OTask) (u : Updates) : OTask :=
  { t with
    title := u.title.getD t.title
    description := u.description.getD t.description
    assignee := u.assignee.getD t.assignee
    dueDate := u.dueDate.getD t.dueDate
    priority := u.priority.getD t.priority
    status := u.status.getD t.status }

/-- Offline `findIndex` + in-place assignment; see `updateFirst`. -/
def updateFirstO (id : String) (u : Updates) : List OTask → Option (OTask × OTask × List OTask)
  | [] => none
  | t :: ts =>
    if t.id = id then some (t, mergeOTask t u, mergeOTask t u :: ts)
    else (updateFirstO id u ts).map (fun r => (r.1, r.2.1, t :: r.2.2))

/-- Offline `this.tasks.find(t => t.id === id)`. -/
def findFirstO (id : String) : List OTask → Option OTask
  | [] => none
  | t :: ts => if t.id = id then some t else findFirstO id ts

/-- One offline operation; `create` carries the environment's clock reading
(`Date.now()` in milliseconds) and ISO timestamp. -/
inductive LocalOp where
  | create (d : Draft) (now : Nat) (iso : String)
  | update (id : String) (u : Updates)
  | delete (id : String)
deriving Repr

/-- One step of the offline store (`createTask`, `updateTask`,
`deleteTask` of the localStorage variant; all synchronous). -/
def localStep (s : LocalState) : LocalOp → LocalState
  | .create d now iso =>
    let task : OTask :=
      { id := toString now, title := d.title, description := d.description,
        assignee := d.assignee, dueDate := d.dueDate, priority := d.priority,
        status := d.status, createdAt := iso }
    let s1 : LocalState := { s with tasks := s.tasks ++ [task] }
    updateColumnCountO s1 task.status
  | .update id u =>
    match updateFirstO id u s.tasks with
    | none => s
    | some (oldTask, _newTask, tasks1) =>
      let s1 : LocalState := { s with tasks := tasks1 }
      match u.status with
      | some stNew =>
        if stNew = oldTask.status then s1
        else updateColumnCountO (updateColumnCountO s1 oldTask.status) stNew
      | none => s1
  | .delete id =>
    match findFirstO id s.tasks with
    | none => s
    | some task =>
      let s1 : LocalState := { s with tasks := s.tasks.filter (fun t => t.id != id) }
      updateColumnCountO s1 task.status

/-- Run a sequence of offline operations. -/
def localRun (s : LocalState) : List LocalOp → LocalState
  | [] => s
  | op :: ops => localRun (localStep s op) ops

/-- The freshly initialised offline dashboard with empty storage. -/
def localInit : LocalState := { tasks := [], counts := ⟨0, 0, 0⟩ }

/-- Offline count consistency. -/
def countsOkOB (s : LocalState) : Bool :=
  (s.counts.todo == countOTasks s.tasks .todo) &&
  (s.counts.inProgress == countOTasks s.tasks .inProgress) &&
  (s.counts.done == countOTasks s.tasks .done)

/-- Clock sanity for one offline operation: a create's millisecond
timestamp renders to a string not already used as an id. -/
def localFresh (s : LocalState) : LocalOp → Bool
  | .create _ now _ => !((s.tasks.map OTask.id).contains (toString now))
  | .update _ _ => true
  | .delete _ => true

/-- Clock sanity along a whole offline trace. -/
def localFreshRun (s : LocalState) : List LocalOp → Bool
  | [] => true
  | op :: ops => localFresh s op && localFreshRun (localStep s op) ops

/-! ## TIP workshop (`issueToTip`, `deleteTip`)

Line boundaries for the multiline anchors `^`/`$` are modelled at `'\n'`
only, matching bodies that use plain `\n` line endings. -/

/-- A TIP record as built by `issueToTip`. -/
structure Tip where
  id : String
  issueNumber : Nat
  title : String
  description : String
  complexity : String
  references : List String
  comments : Nat
  updatedAt : String
  createdAt : String
  url : String
deriving DecidableEq, Repr

/-- The complexity marker prefix `📊 Complexity: `. -/
def complexityMarker : List Char := "📊 Complexity: ".data

/-- Match `\d+` (greedy, at least one ASCII digit). -/
def matchDigits1 (s : List Char) : Option (List Char × List Char) :=
  let ds := s.takeWhile Char.isDigit
  if ds.isEmpty then none else some (ds, s.dropWhile Char.isDigit)

/-- Match `📊 Complexity: (\d+) points?` at the start of the input,
returning the digit group and the remainder (greedy optional `s`). -/
def matchComplexityCore (s : List Char) : Option (List Char × List Char) :=
  match stripPrefixL complexityMarker s with
  | none => none
  | some r1 =>
    match matchDigits1 r1 with
    | none => none
    | some (ds, r2) =>
      match stripPrefixL " point".data r2 with
      | none => none
      | some r3 =>
        match r3 with
        | 's' :: r4 => some (ds, r4)
        | _ => some (ds, r3)

/-- Leftmost search for the complexity marker, returning the digit group
(`body.match(/📊 Complexity: (\d+) points?/)`). -/
def findComplexityL : List Char → Option (List Char)
  | [] => none
  | c :: cs => (matchComplexityCore (c :: cs)).elim (findComplexityL cs) (fun p => some p.1)

/-- Remove the leftmost match of `📊 Complexity: \d+ points?\n?`
(the first `replace` of the description computation; greedy trailing
newline). -/
def removeComplexityOnceL : List Char → List Char
  | [] => []
  | c :: cs =>
    (matchComplexityCore (c :: cs)).elim (c :: removeComplexityOnceL cs)
      (fun p => match p.2 with | '\n' :: r => r | r => r)

/-- `^https?:\/\/`: the line starts with `http://` or `https://`. -/
def startsWithScheme (l : List Char) : Bool :=
  "http://".data.isPrefixOf l || "https://".data.isPrefixOf l

/-- A character the regex `.` matches (no line terminators). -/
def dotChar (c : Char) : Bool :=
  c != '\n' && c != '\r' && c != '\u2028' && c != '\u2029'

/-- A whole line matching `^https?:\/\/.+$`: scheme prefix, then at least
one `.`-matchable character up to the end of the line. -/
def schemeLinePlus (l : List Char) : Bool :=
  if "https://".data.isPrefixOf l then decide (8 < l.length) && (l.drop 8).all dotChar
  else if "http://".data.isPrefixOf l then decide (7 < l.length) && (l.drop 7).all dotChar
  else false

/-- `split('\n')`: split a body into its lines. -/
def splitLinesL : List Char → List (List Char)
  | [] => [[]]
  | c :: cs =>
    if c = '\n' then [] :: splitLinesL cs
    else
      match splitLinesL cs with
      | [] => [[c]]
      | l :: ls => (c :: l) :: ls

/-- One line of `body.replace(/^https?:\/\/.+$/gm, '')`: a matching line is
blanked, the newlines around it remain. -/
def blankUrlLineL (l : List Char) : List Char :=
  if schemeLinePlus l then [] else l

/-- `body.replace(/^https?:\/\/.+$/gm, '')` over `\n`-separated lines. -/
def stripUrlLinesL (s : List Char) : List Char :=
  List.intercalate ['\n'] ((splitLinesL s).map blankUrlLineL)

/-- `issueToTip`: decode an external issue record into a TIP. -/
def issueToTip (i : Issue) : Tip :=
  { id := toString i.number
    issueNumber := i.number
    title := i.title
    description :=
      String.mk (jsTrim (stripUrlLinesL (removeComplexityOnceL i.body.data)))
    complexity := (findComplexityL i.body.data).elim "" String.mk
    references :=
      ((splitLinesL i.body.data).filter (fun l => startsWithScheme (jsTrim l))).map
        (fun l => String.mk (jsTrim l))
    comments := i.comments
    updatedAt := i.updated_at
    createdAt := i.created_at
    url := i.html_url }

/-- The TIP lists (`this.tips`). -/
structure TipsState where
  active : List Tip
  archived : List Tip
deriving Repr

/-- `[...this.tips.active, ...this.tips.archived].find(t => t.id === tipId)`. -/
def findTip (id : String) : List Tip → Option Tip
  | [] => none
  | t :: ts => if t.id = id then some t else findTip id ts

/-- `deleteTip`: the PATCH payload sent for the current TIP, when found. -/
def deleteTip (ts : TipsState) (id : String) : List RemoteCall :=
  match findTip id (ts.active ++ ts.archived) with
  | none => []
  | some tip => [RemoteCall.tombstone tip.issueNumber "closed" ["deleted"]]

/-! ## Claim C1: codec round trip -/

theorem marker_string_data : "\n\n📅 Due: ".data = '\n' :: '\n' :: dueMarker := rfl

theorem isIsoDate_matchDateL {s : String} (h : isIsoDate s = true) :
    matchDateL s.data = some (s.data, []) := by
  simpa [isIsoDate] using h

/-- **C1.** For every valid task record (non-empty title, description free
of the embedded due-date marker and carrying no incidental boundary
whitespace, status/assignee/priority drawn from their enums, `dueDate` an
ISO date string or empty), decoding the encoded (label-set, body,
open/closed state) representation reproduces every field of the record,
the external reference fields being supplied by the collaborator; in
particular a description plus a set `dueDate` survives encoding into the
body with the due-date marker line and decoding back out. -/
theorem claim_C1_roundtrip (n : Nat) (ca u : String) (t : Task)
    (_hTitle : t.title ≠ "")
    (hMark : ∀ c ∈ t.description.data, c ≠ '📅')
    (hTrim : jsTrim t.description.data = t.description.data)
    (hDue : t.dueDate = "" ∨ isIsoDate t.dueDate = true) :
    issueToTask (createdIssue n ca u t) =
      { t with id := toString n, issueNumber := n, createdAt := ca, url := u } := by
  have hbody : (createdIssue n ca u t).body = taskToIssueBody t := rfl
  have hdesc : String.mk (jsTrim (removeDueOnceL (taskToIssueBody t).data)) = t.description ∧
      (match findDueL (taskToIssueBody t).data with
        | some d => String.mk d
        | none => "") = t.dueDate := by
    rcases hDue with h0 | h1
    · have hb : taskToIssueBody t = t.description := by simp [taskToIssueBody, h0]
      rw [hb]
      constructor
      · rw [removeDueOnceL_of_noMark hMark, hTrim]
      · rw [findDueL_of_noMark hMark, h0]
    · have hdate : matchDateL t.dueDate.data = some (t.dueDate.data, []) :=
        isIsoDate_matchDateL h1
      have hne : ¬ t.dueDate = "" := by
        intro e
        rw [e] at h1
        exact absurd h1 (by decide)
      have hbdata : (taskToIssueBody t).data =
          t.description.data ++ ('\n' :: '\n' :: (dueMarker ++ t.dueDate.data)) := by
        calc (taskToIssueBody t).data
            = ((t.description ++ "\n\n📅 Due: ") ++ t.dueDate).data := by
              rw [taskToIssueBody, if_neg hne]
          _ = (t.description.data ++ "\n\n📅 Due: ".data) ++ t.dueDate.data := by
              rw [String.data_append, String.data_append]
          _ = t.description.data ++ ('\n' :: '\n' :: (dueMarker ++ t.dueDate.data)) := by
              rw [marker_string_data]
              simp
      have hsfx : matchMarkerDate ('\n' :: '\n' :: (dueMarker ++ t.dueDate.data)) = none :=
        matchMarkerDate_cons_ne _ (by decide)
      constructor
      · rw [hbdata, removeDueOnceL_append hMark hsfx, removeDueOnceL_suffix hdate,
          jsTrim_append_newline, hTrim]
      · rw [hbdata, findDueL_append _ hMark, findDueL_suffix hdate]
  simp only [issueToTask]
  rw [Task.mk.injEq]
  exact ⟨rfl, rfl, rfl, hdesc.1, assigneeFromLabels_encode t, hdesc.2,
    priorityFromLabels_encode t, statusFromIssue_encode t, rfl, rfl⟩

/-- Witness for C1: a concrete valid record with a set due date
round-trips through the encoded representation. -/
theorem claim_C1_witness :
    issueToTask (createdIssue 7 "2024-01-01T00:00:00Z" "https://x/7"
        ⟨"", 0, "Buy milk", "Get 2%", .sam, "2024-03-01", .high, .inProgress, "", ""⟩) =
      ⟨"7", 7, "Buy milk", "Get 2%", .sam, "2024-03-01", .high, .inProgress,
        "2024-01-01T00:00:00Z", "https://x/7"⟩ :=
  claim_C1_roundtrip 7 "2024-01-01T00:00:00Z" "https://x/7" _
    (by decide) (by decide) (by decide) (Or.inr (by decide))

/-! ## Claim C2: status decode precedence -/

/-- **C2.** Status decoding is deterministic with fixed precedence: the
decoded status is `done` if the label set contains `done` or the external
state is closed (even with no status label present); otherwise
`in-progress` if that label is present; otherwise `todo`. In particular,
decoding the label set `{done, in-progress}` yields `done`. -/
theorem claim_C2_status_precedence (i : Issue) :
    ((i.labels.contains "done" = true ∨ i.state = "closed") →
      (issueToTask i).status = .done) ∧
    (i.labels.contains "done" = false → i.state ≠ "closed" →
      i.labels.contains "in-progress" = true → (issueToTask i).status = .inProgress) ∧
    (i.labels.contains "done" = false → i.state ≠ "closed" →
      i.labels.contains "in-progress" = false → (issueToTask i).status = .todo) ∧
    (issueToTask ⟨0, "", "", ["done", "in-progress"], "open", "", "", "", false, 0⟩).status
      = .done := by
  have hS : (issueToTask i).status = statusFromIssue i.labels i.state := rfl
  refine ⟨?_, ?_, ?_, by decide⟩
  · rintro (h | h) <;> rw [hS] <;> simp_all [statusFromIssue]
  · intro h1 h2 h3
    rw [hS]
    simp_all [statusFromIssue]
  · intro h1 h2 h3
    rw [hS]
    simp_all [statusFromIssue]

/-- Witness for C2: an external record with no status label but a closed
state decodes to `done` (the closed-state override). -/
theorem claim_C2_witness :
    (issueToTask ⟨3, "T", "", ["priority:low"], "closed", "", "", "", false, 0⟩).status
      = Status.done :=
  (claim_C2_status_precedence ⟨3, "T", "", ["priority:low"], "closed", "", "", "", false, 0⟩).1
    (Or.inr rfl)

/-! ## Store invariants: id uniqueness and count consistency -/

theorem Counts.get_set_self (c : Counts) (st : Status) (n : Nat) :
    (c.set st n).get st = n := by
  cases st <;> rfl

theorem Counts.get_set_ne (c : Counts) {st st' : Status} (h : st ≠ st') (n : Nat) :
    (c.set st n).get st' = c.get st' := by
  cases st <;> cases st' <;> first | rfl | exact absurd rfl h

/-- Count consistency as a proposition over the three columns. -/
def countsOkP (s : DashState) : Prop :=
  ∀ st : Status, s.counts.get st = countTasks s.issues st

theorem countsOkB_iff (s : DashState) : countsOkB s = true ↔ countsOkP s := by
  constructor
  · intro h st
    simp only [countsOkB, Bool.and_eq_true, beq_iff_eq] at h
    cases st
    · exact h.1.1
    · exact h.1.2
    · exact h.2
  · intro h
    simp only [countsOkB, Bool.and_eq_true, beq_iff_eq]
    exact ⟨⟨h .todo, h .inProgress⟩, h .done⟩

theorem countTasks_cons (a : Task) (as : List Task) (st : Status) :
    countTasks (a :: as) st = (if a.status == st then 1 else 0) + countTasks as st := by
  cases h : a.status == st <;> simp [countTasks, List.filter_cons, h]
  omega

theorem countTasks_append (ts : List Task) (t : Task) (st : Status) :
    countTasks (ts ++ [t]) st = countTasks ts st + (if t.status == st then 1 else 0) := by
  cases h : t.status == st <;>
    simp [countTasks, List.filter_append, List.filter_cons, h]

theorem mergeTask_id (t : Task) (u : Updates) : (mergeTask t u).id = t.id := rfl

theorem mergeTask_status (t : Task) (u : Updates) :
    (mergeTask t u).status = u.status.getD t.status := rfl

theorem nodupB_iff (l : List String) : nodupB l = true ↔ l.Nodup := by
  induction l with
  | nil => simp [nodupB]
  | cons x xs ih => simp [nodupB, List.nodup_cons, ih]

theorem updateFirst_eq {id : String} {u : Updates} {ts : List Task} {o n : Task}
    {l : List Task} (h : updateFirst id u ts = some (o, n, l)) :
    n = mergeTask o u ∧ l.map Task.id = ts.map Task.id ∧
      ∀ st : Status, countTasks l st + (if o.status == st then 1 else 0) =
        countTasks ts st + (if n.status == st then 1 else 0) := by
  induction ts generalizing o n l with
  | nil => simp [updateFirst] at h
  | cons a as ih =>
    by_cases ha : a.id = id
    · rw [updateFirst, if_pos ha] at h
      simp only [Option.some.injEq, Prod.mk.injEq] at h
      obtain ⟨rfl, rfl, rfl⟩ := h
      refine ⟨rfl, by simp [mergeTask_id], fun st => ?_⟩
      rw [countTasks_cons, countTasks_cons]
      cases h1 : a.status == st <;> cases h2 : (mergeTask a u).status == st <;> omega
    · rw [updateFirst, if_neg ha] at h
      obtain ⟨⟨o', n', l'⟩, hrec, heq⟩ := Option.map_eq_some'.mp h
      simp only [Prod.mk.injEq] at heq
      obtain ⟨rfl, rfl, rfl⟩ := heq
      obtain ⟨hn, hids, hcnt⟩ := ih hrec
      refine ⟨hn, by simp [hids], fun st => ?_⟩
      rw [countTasks_cons, countTasks_cons]
      have := hcnt st
      omega

theorem updateFirst_none_iff {id : String} {u : Updates} {ts : List Task} :
    updateFirst id u ts = none ↔ findFirst id ts = none := by
  induction ts with
  | nil => simp [updateFirst, findFirst]
  | cons a as ih =>
    by_cases ha : a.id = id
    · simp [updateFirst, findFirst, ha]
    · simp [updateFirst, findFirst, ha, Option.map_eq_none', ih]

theorem findFirst_mem {id : String} {ts : List Task} {t : Task}
    (h : findFirst id ts = some t) : t ∈ ts ∧ t.id = id := by
  induction ts with
  | nil => simp [findFirst] at h
  | cons a as ih =>
    by_cases ha : a.id = id
    · rw [findFirst, if_pos ha] at h
      obtain rfl : a = t := by injection h
      exact ⟨List.mem_cons_self a as, ha⟩
    · rw [findFirst, if_neg ha] at h
      obtain ⟨hm, hi⟩ := ih h
      exact ⟨List.mem_cons_of_mem a hm, hi⟩

theorem countTasks_filter_ne {id : String} {ts : List Task} {t : Task}
    (hnd : (ts.map Task.id).Nodup) (h : findFirst id ts = some t) {st : Status}
    (hst : (t.status == st) = false) :
    countTasks (ts.filter (fun x => x.id != id)) st = countTasks ts st := by
  induction ts with
  | nil => simp [findFirst] at h
  | cons a as ih =>
    rw [List.map_cons, List.nodup_cons] at hnd
    by_cases ha : a.id = id
    · rw [findFirst, if_pos ha] at h
      obtain rfl : a = t := by injection h
      have hkeep : as.filter (fun x => x.id != id) = as := by
        rw [List.filter_eq_self]
        intro x hx
        have hne : x.id ≠ a.id := by
          intro e
          exact hnd.1 (e ▸ List.mem_map_of_mem Task.id hx)
        simp [ha ▸ hne]
      have hdrop : ((a :: as).filter (fun x => x.id != id)) = as := by
        rw [List.filter_cons, if_neg (by simp [ha]), hkeep]
      rw [hdrop, countTasks_cons, hst]
      simp
    · rw [findFirst, if_neg ha] at h
      have hrec := ih hnd.2 h
      rw [List.filter_cons, if_pos (by simp [ha]), countTasks_cons, countTasks_cons, hrec]

theorem updateColumnCount_issues (s : DashState) (st : Status) :
    (updateColumnCount s st).issues = s.issues := rfl

theorem apiStep_nodup {s : DashState} {op : ApiOp}
    (hf : apiFresh s op = true) (hnd : (s.issues.map Task.id).Nodup) :
    ((apiStep s op).state.issues.map Task.id).Nodup := by
  cases op with
  | create draft result =>
    cases result with
    | none => exact hnd
    | some issue =>
      have hfresh : toString issue.number ∉ s.issues.map Task.id := by
        simpa [apiFresh] using hf
      show ((s.issues ++ [issueToTask issue]).map Task.id).Nodup
      rw [List.map_append]
      exact List.Nodup.append hnd (List.nodup_singleton _)
        (by simpa [List.disjoint_singleton] using hfresh)
  | update id u ok =>
    rcases hm : updateFirst id u s.issues with _ | ⟨⟨o, n, l⟩⟩
    · simpa [apiStep, hm] using hnd
    · obtain ⟨-, hids, -⟩ := updateFirst_eq hm
      cases ok with
      | false => simpa [apiStep, hm] using hnd
      | true =>
        rcases hu : u.status with _ | stNew
        · simpa [apiStep, hm, hu, hids] using hnd
        · by_cases he : stNew = o.status <;>
            simpa [apiStep, hm, hu, he, updateColumnCount_issues, hids] using hnd
  | delete id ok =>
    rcases hm : findFirst id s.issues with _ | t
    · simpa [apiStep, hm] using hnd
    · cases ok with
      | false => simpa [apiStep, hm] using hnd
      | true =>
        have hsub : ((s.issues.filter (fun x => x.id != id)).map Task.id).Sublist
            (s.issues.map Task.id) := (List.filter_sublist _).map _
        simpa [apiStep, hm, updateColumnCount_issues] using hnd.sublist hsub
  | refresh openL closedL ok =>
    cases ok with
    | false => exact hnd
    | true =>
      have : nodupB (((((openL ++ closedL).filter
          (fun i => !i.pull_request)).map issueToTask).map Task.id)) = true := by
        simpa [apiFresh] using hf
      simpa [apiStep, updateColumnCount_issues] using (nodupB_iff _).mp this

theorem apiStep_counts {s : DashState} {op : ApiOp}
    (hf : apiFresh s op = true) (hnd : (s.issues.map Task.id).Nodup)
    (hc : countsOkP s) : countsOkP (apiStep s op).state := by
  cases op with
  | create draft result =>
    cases result with
    | none => exact hc
    | some issue =>
      intro st
      show (s.counts.set (issueToTask issue).status
          (countTasks (s.issues ++ [issueToTask issue]) (issueToTask issue).status)).get st
        = countTasks (s.issues ++ [issueToTask issue]) st
      by_cases he : st = (issueToTask issue).status
      · rw [he, Counts.get_set_self]
      · have hbeq : ((issueToTask issue).status == st) = false := by
          simp only [beq_eq_false_iff_ne, ne_eq]
          exact fun e => he e.symm
        rw [Counts.get_set_ne _ (fun e => he e.symm), hc st, countTasks_append, hbeq]
        simp
  | update id u ok =>
    rcases hm : updateFirst id u s.issues with _ | ⟨⟨o, n, l⟩⟩
    · simpa [apiStep, hm] using hc
    · obtain ⟨hn, hids, hcnt⟩ := updateFirst_eq hm
      cases ok with
      | false => simpa [apiStep, hm] using hc
      | true =>
        rcases hu : u.status with _ | stNew
        · have hns : n.status = o.status := by rw [hn, mergeTask_status, hu]; rfl
          have hstate : (apiStep s (.update id u true)).state = { s with issues := l } := by
            simp [apiStep, hm, hu]
          rw [hstate]
          intro st
          show s.counts.get st = countTasks l st
          have hb := hcnt st
          rw [hns] at hb
          rw [hc st]
          exact (Nat.add_right_cancel hb).symm
        · have hns : n.status = stNew := by rw [hn, mergeTask_status, hu]; rfl
          by_cases he : stNew = o.status
          · have hstate : (apiStep s (.update id u true)).state = { s with issues := l } := by
              simp [apiStep, hm, hu, he]
            rw [hstate]
            intro st
            show s.counts.get st = countTasks l st
            have hb := hcnt st
            rw [hns, he] at hb
            rw [hc st]
            exact (Nat.add_right_cancel hb).symm
          · have hstate : (apiStep s (.update id u true)).state =
                updateColumnCount (updateColumnCount { s with issues := l } o.status) stNew := by
              simp [apiStep, hm, hu, he]
            rw [hstate]
            intro st
            show ((({ s with issues := l } : DashState).counts.set o.status
                (countTasks l o.status)).set stNew (countTasks l stNew)).get st
              = countTasks l st
            by_cases h1 : st = stNew
            · rw [h1, Counts.get_set_self]
            · rw [Counts.get_set_ne _ (fun e => h1 e.symm)]
              by_cases h2 : st = o.status
              · rw [h2, Counts.get_set_self]
              · rw [Counts.get_set_ne _ (fun e => h2 e.symm)]
                have hb := hcnt st
                have hbo : (o.status == st) = false := by
                  simp only [beq_eq_false_iff_ne, ne_eq]
                  exact fun e => h2 e.symm
                have hbn : (n.status == st) = false := by
                  rw [hns]
                  simp only [beq_eq_false_iff_ne, ne_eq]
                  exact fun e => h1 e.symm
                rw [hbo, hbn] at hb
                simp at hb
                show s.counts.get st = countTasks l st
                rw [hc st, hb]
  | delete id ok =>
    rcases hm : findFirst id s.issues with _ | t
    · simpa [apiStep, hm] using hc
    · cases ok with
      | false => simpa [apiStep, hm] using hc
      | true =>
        have hstate : (apiStep s (.delete id true)).state =
            updateColumnCount { s with issues := s.issues.filter (fun x => x.id != id) }
              t.status := by
          simp [apiStep, hm]
        rw [hstate]
        intro st
        show (s.counts.set t.status
            (countTasks (s.issues.filter (fun x => x.id != id)) t.status)).get st
          = countTasks (s.issues.filter (fun x => x.id != id)) st
        by_cases he : st = t.status
        · rw [he, Counts.get_set_self]
        · have hbeq : (t.status == st) = false := by
            simp only [beq_eq_false_iff_ne, ne_eq]
            exact fun e => he e.symm
          rw [Counts.get_set_ne _ (fun e => he e.symm), hc st,
            countTasks_filter_ne hnd hm hbeq]
  | refresh openL closedL ok =>
    cases ok with
    | false => exact hc
    | true =>
      intro st
      cases st <;> rfl

theorem apiRun_nodup (ops : List ApiOp) (s : DashState)
    (hf : apiFreshRun s ops = true) (hnd : (s.issues.map Task.id).Nodup) :
    ((apiRun s ops).issues.map Task.id).Nodup := by
  induction ops generalizing s with
  | nil => exact hnd
  | cons op ops ih =>
    rw [apiFreshRun, Bool.and_eq_true] at hf
    exact ih _ hf.2 (apiStep_nodup hf.1 hnd)

theorem apiRun_inv (ops : List ApiOp) (s : DashState)
    (hf : apiFreshRun s ops = true) (hnd : (s.issues.map Task.id).Nodup)
    (hc : countsOkP s) :
    ((apiRun s ops).issues.map Task.id).Nodup ∧ countsOkP (apiRun s ops) := by
  induction ops generalizing s with
  | nil => exact ⟨hnd, hc⟩
  | cons op ops ih =>
    rw [apiFreshRun, Bool.and_eq_true] at hf
    exact ih _ hf.2 (apiStep_nodup hf.1 hnd) (apiStep_counts hf.1 hnd hc)

/-! ### The same invariants for the offline variant -/

/-- Offline count consistency as a proposition. -/
def countsOkOP (s : LocalState) : Prop :=
  ∀ st : Status, s.counts.get st = countOTasks s.tasks st

theorem countsOkOB_iff (s : LocalState) : countsOkOB s = true ↔ countsOkOP s := by
  constructor
  · intro h st
    simp only [countsOkOB, Bool.and_eq_true, beq_iff_eq] at h
    cases st
    · exact h.1.1
    · exact h.1.2
    · exact h.2
  · intro h
    simp only [countsOkOB, Bool.and_eq_true, beq_iff_eq]
    exact ⟨⟨h .todo, h .inProgress⟩, h .done⟩

theorem countOTasks_cons (a : OTask) (as : List OTask) (st : Status) :
    countOTasks (a :: as) st = (if a.status == st then 1 else 0) + countOTasks as st := by
  cases h : a.status == st <;> simp [countOTasks, List.filter_cons, h]
  omega

theorem countOTasks_append (ts : List OTask) (t : OTask) (st : Status) :
    countOTasks (ts ++ [t]) st = countOTasks ts st + (if t.status == st then 1 else 0) := by
  cases h : t.status == st <;>
    simp [countOTasks, List.filter_append, List.filter_cons, h]

theorem mergeOTask_status (t : OTask) (u : Updates) :
    (mergeOTask t u).status = u.status.getD t.status := rfl

theorem updateFirstO_eq {id : String} {u : Updates} {ts : List OTask} {o n : OTask}
    {l : List OTask} (h : updateFirstO id u ts = some (o, n, l)) :
    n = mergeOTask o u ∧ l.map OTask.id = ts.map OTask.id ∧
      ∀ st : Status, countOTasks l st + (if o.status == st then 1 else 0) =
        countOTasks ts st + (if n.status == st then 1 else 0) := by
  induction ts generalizing o n l with
  | nil => simp [updateFirstO] at h
  | cons a as ih =>
    by_cases ha : a.id = id
    · rw [updateFirstO, if_pos ha] at h
      simp only [Option.some.injEq, Prod.mk.injEq] at h
      obtain ⟨rfl, rfl, rfl⟩ := h
      refine ⟨rfl, by simp [mergeOTask], fun st => ?_⟩
      rw [countOTasks_cons, countOTasks_cons]
      cases h1 : a.status == st <;> cases h2 : (mergeOTask a u).status == st <;> omega
    · rw [updateFirstO, if_neg ha] at h
      obtain ⟨⟨o2, n2, l2⟩, hrec, heq⟩ := Option.map_eq_some'.mp h
      simp only [Prod.mk.injEq] at heq
      obtain ⟨rfl, rfl, rfl⟩ := heq
      obtain ⟨hn, hids, hcnt⟩ := ih hrec
      refine ⟨hn, by simp [hids], fun st => ?_⟩
      rw [countOTasks_cons, countOTasks_cons]
      have := hcnt st
      omega

theorem findFirstO_mem {id : String} {ts : List OTask} {t : OTask}
    (h : findFirstO id ts = some t) : t ∈ ts ∧ t.id = id := by
  induction ts with
  | nil => simp [findFirstO] at h
  | cons a as ih =>
    by_cases ha : a.id = id
    · rw [findFirstO, if_pos ha] at h
      obtain rfl : a = t := by injection h
      exact ⟨List.mem_cons_self a as, ha⟩
    · rw [findFirstO, if_neg ha] at h
      obtain ⟨hm, hi⟩ := ih h
      exact ⟨List.mem_cons_of_mem a hm, hi⟩

theorem countOTasks_filter_ne {id : String} {ts : List OTask} {t : OTask}
    (hnd : (ts.map OTask.id).Nodup) (h : findFirstO id ts = some t) {st : Status}
    (hst : (t.status == st) = false) :
    countOTasks (ts.filter (fun x => x.id != id)) st = countOTasks ts st := by
  induction ts with
  | nil => simp [findFirstO] at h
  | cons a as ih =>
    rw [List.map_cons, List.nodup_cons] at hnd
    by_cases ha : a.id = id
    · rw [findFirstO, if_pos ha] at h
      obtain rfl : a = t := by injection h
      have hkeep : as.filter (fun x => x.id != id) = as := by
        rw [List.filter_eq_self]
        intro x hx
        have hne : x.id ≠ a.id := by
          intro e
          exact hnd.1 (e ▸ List.mem_map_of_mem OTask.id hx)
        simp [ha ▸ hne]
      have hdrop : ((a :: as).filter (fun x => x.id != id)) = as := by
        rw [List.filter_cons, if_neg (by simp [ha]), hkeep]
      rw [hdrop, countOTasks_cons, hst]
      simp
    · rw [findFirstO, if_neg ha] at h
      have hrec := ih hnd.2 h
      rw [List.filter_cons, if_pos (by simp [ha]), countOTasks_cons, countOTasks_cons, hrec]

theorem localStep_nodup {s : LocalState} {op : LocalOp}
    (hf : localFresh s op = true) (hnd : (s.tasks.map OTask.id).Nodup) :
    ((localStep s op).tasks.map OTask.id).Nodup := by
  cases op with
  | create d now iso =>
    have hfresh : toString now ∉ s.tasks.map OTask.id := by
      simpa [localFresh] using hf
    show ((s.tasks ++ [_]).map OTask.id).Nodup
    rw [List.map_append]
    exact List.Nodup.append hnd (List.nodup_singleton _)
      (by simpa [List.disjoint_singleton] using hfresh)
  | update id u =>
    rcases hm : updateFirstO id u s.tasks with _ | ⟨⟨o, n, l⟩⟩
    · simpa [localStep, hm] using hnd
    · obtain ⟨-, hids, -⟩ := updateFirstO_eq hm
      rcases hu : u.status with _ | stNew
      · simpa [localStep, hm, hu, hids] using hnd
      · by_cases he : stNew = o.status <;>
          simpa [localStep, hm, hu, he, updateColumnCountO, hids] using hnd
  | delete id =>
    rcases hm : findFirstO id s.tasks with _ | t
    · simpa [localStep, hm] using hnd
    · have hsub : ((s.tasks.filter (fun x => x.id != id)).map OTask.id).Sublist
          (s.tasks.map OTask.id) := (List.filter_sublist _).map _
      simpa [localStep, hm, updateColumnCountO] using hnd.sublist hsub

theorem localStep_counts {s : LocalState} {op : LocalOp}
    (hf : localFresh s op = true) (hnd : (s.tasks.map OTask.id).Nodup)
    (hc : countsOkOP s) : countsOkOP (localStep s op) := by
  cases op with
  | create d now iso =>
    intro st
    show (s.counts.set d.status (countOTasks (s.tasks ++
        [⟨toString now, d.title, d.description, d.assignee, d.dueDate, d.priority,
          d.status, iso⟩]) d.status)).get st
      = countOTasks (s.tasks ++
        [⟨toString now, d.title, d.description, d.assignee, d.dueDate, d.priority,
          d.status, iso⟩]) st
    by_cases he : st = d.status
    · rw [he, Counts.get_set_self]
    · have hbeq : (d.status == st) = false := by
        simp only [beq_eq_false_iff_ne, ne_eq]
        exact fun e => he e.symm
      rw [Counts.get_set_ne _ (fun e => he e.symm), hc st, countOTasks_append]
      simp [hbeq]
  | update id u =>
    rcases hm : updateFirstO id u s.tasks with _ | ⟨⟨o, n, l⟩⟩
    · simpa [localStep, hm] using hc
    · obtain ⟨hn, hids, hcnt⟩ := updateFirstO_eq hm
      rcases hu : u.status with _ | stNew
      · have hns : n.status = o.status := by rw [hn, mergeOTask_status, hu]; rfl
        have hstate : localStep s (.update id u) = { s with tasks := l } := by
          simp [localStep, hm, hu]
        rw [hstate]
        intro st
        show s.counts.get st = countOTasks l st
        have hb := hcnt st
        rw [hns] at hb
        rw [hc st]
        exact (Nat.add_right_cancel hb).symm
      · have hns : n.status = stNew := by rw [hn, mergeOTask_status, hu]; rfl
        by_cases he : stNew = o.status
        · have hstate : localStep s (.update id u) = { s with tasks := l } := by
            simp [localStep, hm, hu, he]
          rw [hstate]
          intro st
          show s.counts.get st = countOTasks l st
          have hb := hcnt st
          rw [hns, he] at hb
          rw [hc st]
          exact (Nat.add_right_cancel hb).symm
        · have hstate : localStep s (.update id u) =
              updateColumnCountO (updateColumnCountO { s with tasks := l } o.status) stNew := by
            simp [localStep, hm, hu, he]
          rw [hstate]
          intro st
          show ((({ s with tasks := l } : LocalState).counts.set o.status
              (countOTasks l o.status)).set stNew (countOTasks l stNew)).get st
            = countOTasks l st
          by_cases h1 : st = stNew
          · rw [h1, Counts.get_set_self]
          · rw [Counts.get_set_ne _ (fun e => h1 e.symm)]
            by_cases h2 : st = o.status
            · rw [h2, Counts.get_set_self]
            · rw [Counts.get_set_ne _ (fun e => h2 e.symm)]
              have hb := hcnt st
              have hbo : (o.status == st) = false := by
                simp only [beq_eq_false_iff_ne, ne_eq]
                exact fun e => h2 e.symm
              have hbn : (n.status == st) = false := by
                rw [hns]
                simp only [beq_eq_false_iff_ne, ne_eq]
                exact fun e => h1 e.symm
              rw [hbo, hbn] at hb
              simp at hb
              show s.counts.get st = countOTasks l st
              rw [hc st, hb]
  | delete id =>
    rcases hm : findFirstO id s.tasks with _ | t
    · simpa [localStep, hm] using hc
    · have hstate : localStep s (.delete id) =
          updateColumnCountO { s with tasks := s.tasks.filter (fun x => x.id != id) }
            t.status := by
        simp [localStep, hm]
      rw [hstate]
      intro st
      show (s.counts.set t.status
          (countOTasks (s.tasks.filter (fun x => x.id != id)) t.status)).get st
        = countOTasks (s.tasks.filter (fun x => x.id != id)) st
      by_cases he : st = t.status
      · rw [he, Counts.get_set_self]
      · have hbeq : (t.status == st) = false := by
          simp only [beq_eq_false_iff_ne, ne_eq]
          exact fun e => he e.symm
        rw [Counts.get_set_ne _ (fun e => he e.symm), hc st,
          countOTasks_filter_ne hnd hm hbeq]

theorem localRun_nodup (ops : List LocalOp) (s : LocalState)
    (hf : localFreshRun s ops = true) (hnd : (s.tasks.map OTask.id).Nodup) :
    ((localRun s ops).tasks.map OTask.id).Nodup := by
  induction ops generalizing s with
  | nil => exact hnd
  | cons op ops ih =>
    rw [localFreshRun, Bool.and_eq_true] at hf
    exact ih _ hf.2 (localStep_nodup hf.1 hnd)

theorem localRun_inv (ops : List LocalOp) (s : LocalState)
    (hf : localFreshRun s ops = true) (hnd : (s.tasks.map OTask.id).Nodup)
    (hc : countsOkOP s) :
    ((localRun s ops).tasks.map OTask.id).Nodup ∧ countsOkOP (localRun s ops) := by
  induction ops generalizing s with
  | nil => exact ⟨hnd, hc⟩
  | cons op ops ih =>
    rw [localFreshRun, Bool.and_eq_true] at hf
    exact ih _ hf.2 (localStep_nodup hf.1 hnd) (localStep_counts hf.1 hnd hc)

/-! ## Shared concrete fixtures for witnesses and counterexamples -/

/-- A concrete collection member. -/
def sampleTask : Task := ⟨"1", 1, "T", "", .nobody, "", .medium, .todo, "", ""⟩

/-- A dashboard holding exactly `sampleTask`, with consistent counts. -/
def sampleState : DashState := ⟨[sampleTask], ⟨1, 0, 0⟩⟩

/-- A concrete TIP. -/
def sampleTip : Tip := ⟨"9", 9, "I", "", "", [], 0, "", "", ""⟩

/-- A TIP workshop holding exactly `sampleTip`. -/
def sampleTips : TipsState := ⟨[sampleTip], []⟩

/-! ## Claim C3: count consistency -/

/-- **C3.** After any sequence of create/update/delete (and refresh)
operations from the initial state, for every status value the displayed
column count equals the number of records in the in-memory collection
whose status equals that value — in both variants.  The counts a step
writes are recomputed from the collection (`updateColumnCount`), never
incremented; the trace hypothesis is the collaborator/clock sanity the
store relies on (fresh issue numbers and fresh millisecond timestamps). -/
theorem claim_C3_count_consistency :
    (∀ ops : List ApiOp, apiFreshRun initState ops = true →
      countsOkB (apiRun initState ops) = true) ∧
    (∀ ops : List LocalOp, localFreshRun localInit ops = true →
      countsOkOB (localRun localInit ops) = true) := by
  constructor
  · intro ops hf
    refine (countsOkB_iff _).mpr ?_
    exact (apiRun_inv ops initState hf (by simp [initState])
      (by intro st; cases st <;> rfl)).2
  · intro ops hf
    refine (countsOkOB_iff _).mpr ?_
    exact (localRun_inv ops localInit hf (by simp [localInit])
      (by intro st; cases st <;> rfl)).2

/-- Witness for C3: a concrete create/update/delete trace in each variant
leaves every displayed count equal to the collection count. -/
theorem claim_C3_witness :
    countsOkB (apiRun initState
      [ApiOp.create ⟨"", 0, "A", "", .nobody, "", .medium, .todo, "", ""⟩
        (some ⟨1, "A", "", ["todo", "priority:medium"], "open", "", "", "", false, 0⟩),
       ApiOp.update "1" ⟨none, none, none, none, none, some .done⟩ true,
       ApiOp.delete "1" true]) = true ∧
    countsOkOB (localRun localInit
      [LocalOp.create ⟨"A", "", .nobody, "", .medium, .todo⟩ 5 "t0",
       LocalOp.update "5" ⟨none, none, none, none, none, some .done⟩,
       LocalOp.delete "5"]) = true :=
  ⟨claim_C3_count_consistency.1 _ (by decide), claim_C3_count_consistency.2 _ (by decide)⟩

/-! ## Claim C4: create/update atomicity on remote failure -/

/-- **C4.** Create and update are atomic with respect to remote failure:
when the collaborator call of a create or update fails, the dashboard
state (collection and counts) is left exactly as before and the error
propagates to the caller. -/
theorem claim_C4_atomic_failure (s : DashState) (d : Task) (id : String) (u : Updates) :
    ((apiStep s (.create d none)).state = s ∧ (apiStep s (.create d none)).err = true) ∧
    ((apiStep s (.update id u false)).calls ≠ [] →
      (apiStep s (.update id u false)).state = s ∧
        (apiStep s (.update id u false)).err = true) := by
  refine ⟨⟨rfl, rfl⟩, ?_⟩
  intro hcalls
  rcases hm : updateFirst id u s.issues with _ | ⟨⟨o, n, l⟩⟩
  · exact absurd (by simp [apiStep, hm]) hcalls
  · constructor <;> simp [apiStep, hm]

/-- Witness for C4: a failed update on a present id leaves the concrete
state unchanged and surfaces the error. -/
theorem claim_C4_witness :
    (apiStep sampleState
        (.update "1" ⟨none, none, none, none, none, some .done⟩ false)).state = sampleState ∧
    (apiStep sampleState
        (.update "1" ⟨none, none, none, none, none, some .done⟩ false)).err = true :=
  (claim_C4_atomic_failure sampleState sampleTask "1"
    ⟨none, none, none, none, none, some .done⟩).2 (by decide)

/-! ## Claim C5: delete is **not** committed locally on remote failure -/

/-- Counterexample to C5 as stated: with `sampleTask` (id `"1"`) present,
a delete whose tombstone request fails leaves the record in the local
collection — the `await` throws before the removal statements run — so the
local removal does *not* still happen. -/
theorem claim_C5_counterexample :
    findFirst "1" sampleState.issues = some sampleTask ∧
    (apiStep sampleState (.delete "1" false)).err = true ∧
    (apiStep sampleState (.delete "1" false)).state.issues = [sampleTask] := by
  decide

/-- **C5 (amended).** For every task whose id is present: when the
tombstone request succeeds, the record is removed from the local
collection unconditionally; when the request fails, the exception
propagates and the local removal is skipped, leaving the collection
unchanged. -/
theorem claim_C5_delete_gated (s : DashState) (id : String) (t : Task)
    (h : findFirst id s.issues = some t) :
    ((apiStep s (.delete id true)).state.issues =
        s.issues.filter (fun x => x.id != id) ∧
      (apiStep s (.delete id true)).err = false) ∧
    ((apiStep s (.delete id false)).state = s ∧
      (apiStep s (.delete id false)).err = true) := by
  refine ⟨⟨?_, ?_⟩, ?_, ?_⟩ <;> simp [apiStep, h, updateColumnCount_issues]

/-- Witness for C5 (amended) at the concrete one-task dashboard. -/
theorem claim_C5_witness :
    ((apiStep sampleState (.delete "1" true)).state.issues =
        sampleState.issues.filter (fun x => x.id != "1") ∧
      (apiStep sampleState (.delete "1" true)).err = false) ∧
    ((apiStep sampleState (.delete "1" false)).state = sampleState ∧
      (apiStep sampleState (.delete "1" false)).err = true) :=
  claim_C5_delete_gated sampleState "1" sampleTask (by decide)

/-! ## Claim C6: id uniqueness -/

/-- Counterexample to C6 as stated: in the offline variant two creates in
the same millisecond (`Date.now()` returning 5 twice) produce two records
with the same id `"5"`; nothing in the code prevents the collision. -/
theorem claim_C6_counterexample :
    ¬ (((localRun localInit
      [LocalOp.create ⟨"A", "", .nobody, "", .medium, .todo⟩ 5 "t0",
       LocalOp.create ⟨"B", "", .nobody, "", .medium, .todo⟩ 5 "t1"]).tasks.map
        OTask.id).Nodup) := by
  decide

/-- **C6 (amended).** Id uniqueness is an invariant of every operation
sequence in both variants *provided* each offline create's millisecond
timestamp renders to a string not already used as an id, and the
collaborator supplies a fresh issue number on create and pairwise distinct
numbers on refresh; update and delete always preserve uniqueness. -/
theorem claim_C6_unique_ids (s : LocalState) (ops : List LocalOp)
    (s2 : DashState) (ops2 : List ApiOp)
    (hnd : (s.tasks.map OTask.id).Nodup) (hf : localFreshRun s ops = true)
    (hnd2 : (s2.issues.map Task.id).Nodup) (hf2 : apiFreshRun s2 ops2 = true) :
    ((localRun s ops).tasks.map OTask.id).Nodup ∧
      ((apiRun s2 ops2).issues.map Task.id).Nodup :=
  ⟨localRun_nodup ops s hf hnd, apiRun_nodup ops2 s2 hf2 hnd2⟩

/-- Witness for C6 (amended): ids stay pairwise distinct on concrete
traces whose create timestamps and issue numbers are fresh. -/
theorem claim_C6_witness :
    ((localRun localInit
      [LocalOp.create ⟨"A", "", .nobody, "", .medium, .todo⟩ 5 "t0",
       LocalOp.create ⟨"B", "", .nobody, "", .medium, .todo⟩ 6 "t1"]).tasks.map
        OTask.id).Nodup ∧
    ((apiRun sampleState
      [ApiOp.create ⟨"", 0, "B", "", .nobody, "", .medium, .todo, "", ""⟩
        (some ⟨2, "B", "", ["todo"], "open", "", "", "", false, 0⟩)]).issues.map
        Task.id).Nodup :=
  claim_C6_unique_ids localInit _ sampleState _ (by decide) (by decide) (by decide) (by decide)

/-! ## Claim C7: absent id is a silent no-op -/

/-- **C7.** For every id absent from the in-memory collection,
`updateTask` and `deleteTask` are silent no-ops: no collaborator call is
issued, the state (collection and displayed counts) is unchanged, no error
is raised, and update returns `null`. -/
theorem claim_C7_absent_noop (s : DashState) (id : String) (u : Updates) (ok : Bool)
    (h : findFirst id s.issues = none) :
    ((apiStep s (.update id u ok)).state = s ∧ (apiStep s (.update id u ok)).calls = [] ∧
      (apiStep s (.update id u ok)).ret = none ∧ (apiStep s (.update id u ok)).err = false) ∧
    ((apiStep s (.delete id ok)).state = s ∧ (apiStep s (.delete id ok)).calls = [] ∧
      (apiStep s (.delete id ok)).err = false) := by
  have hu : updateFirst id u s.issues = none := updateFirst_none_iff.mpr h
  refine ⟨?_, ?_⟩ <;> simp [apiStep, hu, h]

/-- Witness for C7: id `"2"` is absent from the concrete dashboard. -/
theorem claim_C7_witness :
    ((apiStep sampleState (.update "2" ⟨none, none, none, none, none, some .done⟩ true)).state
        = sampleState ∧
      (apiStep sampleState (.update "2" ⟨none, none, none, none, none, some .done⟩ true)).calls
        = [] ∧
      (apiStep sampleState (.update "2" ⟨none, none, none, none, none, some .done⟩ true)).ret
        = none ∧
      (apiStep sampleState (.update "2" ⟨none, none, none, none, none, some .done⟩ true)).err
        = false) ∧
    ((apiStep sampleState (.delete "2" true)).state = sampleState ∧
      (apiStep sampleState (.delete "2" true)).calls = [] ∧
      (apiStep sampleState (.delete "2" true)).err = false) :=
  claim_C7_absent_noop sampleState "2" ⟨none, none, none, none, none, some .done⟩ true (by decide)

/-! ## Claim C8: external open/closed state derived from status -/

/-- **C8.** On every update of a present id, the payload sent to the
collaborator carries state `closed` if and only if the merged record's
status is `done`, and state `open` otherwise — so moving a task away from
`done` reopens the external record. -/
theorem claim_C8_state_from_status (s : DashState) (id : String) (u : Updates)
    (ok : Bool) (o n : Task) (l : List Task)
    (h : updateFirst id u s.issues = some (o, n, l)) :
    (apiStep s (.update id u ok)).calls =
      [RemoteCall.updateIssue o.issueNumber n.title (taskToIssueBody n)
        (getLabelsForTask n) (if n.status = .done then "closed" else "open")] ∧
    ∀ c ∈ (apiStep s (.update id u ok)).calls,
      (c.sentState = some "closed" ↔ n.status = .done) ∧
      (c.sentState = some "open" ↔ n.status ≠ .done) := by
  have hcalls : (apiStep s (.update id u ok)).calls =
      [RemoteCall.updateIssue o.issueNumber n.title (taskToIssueBody n)
        (getLabelsForTask n) (if n.status = .done then "closed" else "open")] := by
    cases ok <;> simp [apiStep, h]
  refine ⟨hcalls, ?_⟩
  intro c hc
  rw [hcalls] at hc
  simp only [List.mem_singleton] at hc
  subst hc
  by_cases hd : n.status = .done <;> simp [hd, RemoteCall.sentState]

/-- Witness for C8: updating the concrete task to `done` sends the
collaborator a closed state with the full merged record. -/
theorem claim_C8_witness :
    (apiStep sampleState
        (.update "1" ⟨none, none, none, none, none, some Status.done⟩ true)).calls =
      [RemoteCall.updateIssue 1 "T" "" ["done", "priority:medium"] "closed"] := by
  have h := claim_C8_state_from_status sampleState "1"
    ⟨none, none, none, none, none, some Status.done⟩ true sampleTask
    (mergeTask sampleTask ⟨none, none, none, none, none, some Status.done⟩)
    [mergeTask sampleTask ⟨none, none, none, none, none, some Status.done⟩] (by decide)
  rw [h.1]
  decide

/-! ## Claim C9: tip reference extraction -/

/-- Modelled from the spec: the claimed full-line reference pattern
`^https?:\/\/\S+$` — scheme prefix, then at least one character, all
characters non-whitespace.  Stated for comparison with the code's actual
condition (`line.trim()` starting with the scheme). -/
def specUrlLine (l : String) : Bool :=
  (("http://".data.isPrefixOf l.data && decide (7 < l.data.length)) ||
   ("https://".data.isPrefixOf l.data && decide (8 < l.data.length))) &&
  l.data.all (fun c => !c.isWhitespace)

theorem jsTrim_of_no_ws {l : List Char} (h : ∀ c ∈ l, c.isWhitespace = false) :
    jsTrim l = l := by
  have hstart : trimStart l = l := by
    cases l with
    | nil => rfl
    | cons c cs => simp [trimStart, List.dropWhile_cons, h c (by simp)]
  have hend : trimEnd l = l := by
    unfold trimEnd
    rcases hr : l.reverse with _ | ⟨c, cs⟩
    · simp_all
    · have hc : c ∈ l := by
        rw [← List.mem_reverse, hr]
        simp
      rw [List.dropWhile_cons, h c hc]
      simp [← hr]
  rw [jsTrim, hstart, hend]

/-- Counterexample to C9 as stated: the body line `http://a b` does not
match `^https?:\/\/\S+$` (it has an embedded space), yet it is extracted
as a reference, because the code only tests that the trimmed line starts
with the scheme. -/
theorem claim_C9_counterexample :
    (issueToTip ⟨9, "T", "see\nhttp://a b", [], "open", "", "", "", false, 0⟩).references
      = ["http://a b"] ∧
    specUrlLine "http://a b" = false := by
  decide

/-- **C9 (amended).** References are exactly the body lines whose trimmed
form begins with `http://` or `https://` — a superset of the full-line
`^https?:\/\/\S+$` matches, which are all extracted — stored trimmed in
encounter order; the description is the remaining text after the
complexity marker is removed and every line that begins unindented with
the scheme plus at least one character is blanked, the whole then
trimmed. -/
theorem claim_C9_references (i : Issue) :
    (issueToTip i).references =
      ((splitLinesL i.body.data).filter (fun l => startsWithScheme (jsTrim l))).map
        (fun l => String.mk (jsTrim l)) ∧
    (∀ l ∈ splitLinesL i.body.data, specUrlLine (String.mk l) = true →
      String.mk l ∈ (issueToTip i).references) ∧
    (issueToTip i).description =
      String.mk (jsTrim (stripUrlLinesL (removeComplexityOnceL i.body.data))) := by
  refine ⟨rfl, ?_, rfl⟩
  intro l hl hspec
  simp only [specUrlLine, Bool.and_eq_true, Bool.or_eq_true, List.all_eq_true] at hspec
  obtain ⟨hscheme, hnws⟩ := hspec
  have hnoWs : ∀ c ∈ l, c.isWhitespace = false := by
    intro c hc
    simpa using hnws c hc
  have htrim : jsTrim l = l := jsTrim_of_no_ws hnoWs
  have hstart : startsWithScheme (jsTrim l) = true := by
    rw [htrim, startsWithScheme]
    rcases hscheme with ⟨hp, -⟩ | ⟨hp, -⟩ <;> simp_all
  show String.mk l ∈ ((splitLinesL i.body.data).filter
      (fun l => startsWithScheme (jsTrim l))).map (fun l => String.mk (jsTrim l))
  rw [List.mem_map]
  exact ⟨l, List.mem_filter.mpr ⟨hl, hstart⟩, by rw [htrim]⟩

/-- Witness for C9 (amended) at a concrete body: the trailing-text line is
extracted, the full-line URL is extracted, and the description retains the
leading-whitespace URL line the blanking regex misses. -/
theorem claim_C9_witness :
    (issueToTip ⟨9, "T", "idea\nhttp://a b\nhttps://ok.io/z\n https://x.io", [],
        "open", "", "", "", false, 0⟩).references =
      ["http://a b", "https://ok.io/z", "https://x.io"] ∧
    "https://ok.io/z" ∈ (issueToTip ⟨9, "T", "idea\nhttp://a b\nhttps://ok.io/z\n https://x.io",
        [], "open", "", "", "", false, 0⟩).references ∧
    (issueToTip ⟨9, "T", "idea\nhttp://a b\nhttps://ok.io/z\n https://x.io", [],
        "open", "", "", "", false, 0⟩).description = "idea\n\n\n https://x.io" := by
  have h := claim_C9_references
    ⟨9, "T", "idea\nhttp://a b\nhttps://ok.io/z\n https://x.io", [], "open", "", "", "", false, 0⟩
  refine ⟨by decide, ?_, by decide⟩
  exact h.2.1 "https://ok.io/z".data (by decide) (by decide)

/-! ## Claim C10: delete replaces the label set with the tombstone -/

/-- **C10.** Deleting a task (or TIP) sends the collaborator a payload
that closes the record and replaces its entire label set with exactly the
single label `deleted`: every label on the payload is `deleted`, so the
previously encoded status/assignee/priority (and `tip`) labels are
dropped rather than preserved. -/
theorem claim_C10_tombstone (s : DashState) (id : String) (ok : Bool) (t : Task)
    (ts : TipsState) (tid : String) (tip : Tip)
    (h : findFirst id s.issues = some t)
    (htip : findTip tid (ts.active ++ ts.archived) = some tip) :
    ((apiStep s (.delete id ok)).calls =
        [RemoteCall.tombstone t.issueNumber "closed" ["deleted"]] ∧
      ∀ c ∈ (apiStep s (.delete id ok)).calls,
        c.sentLabels = ["deleted"] ∧ c.sentState = some "closed") ∧
    deleteTip ts tid = [RemoteCall.tombstone tip.issueNumber "closed" ["deleted"]] := by
  have hcalls : (apiStep s (.delete id ok)).calls =
      [RemoteCall.tombstone t.issueNumber "closed" ["deleted"]] := by
    cases ok <;> simp [apiStep, h]
  refine ⟨⟨hcalls, ?_⟩, by simp [deleteTip, htip]⟩
  intro c hc
  rw [hcalls] at hc
  simp only [List.mem_singleton] at hc
  subst hc
  exact ⟨rfl, rfl⟩

/-- Witness for C10 at the concrete task and TIP. -/
theorem claim_C10_witness :
    (apiStep sampleState (.delete "1" true)).calls =
      [RemoteCall.tombstone 1 "closed" ["deleted"]] ∧
    deleteTip sampleTips "9" = [RemoteCall.tombstone 9 "closed" ["deleted"]] := by
  have h := claim_C10_tombstone sampleState "1" true sampleTask sampleTips "9" sampleTip
    (by decide) (by decide)
  exact ⟨h.1.1, h.2⟩

end TaskDash
